import Mathlib

/-!
Verification development for the universal-memory-mcp memory store.

The TypeScript sources (src/memory-store.ts, src/ollama-client.ts,
src/utils.ts, src/http-server.ts, src/index.ts) are shallowly embedded:
pure functions become Lean functions, the SQLite database becomes an
explicit `Db` value (a list of rows per table), effects (fresh ids,
clock readings, collaborator answers, insertion failures) become
explicit parameters, and fallible operations return `Except`.

Modelling conventions, used throughout:
- JS `string` is `String`; `toLowerCase` is ASCII lowering (all data in
  the claims is ASCII); `x.split(/\s+/)` is `jsSplitWs`, reproducing the
  JS behaviour of keeping the empty pieces that appear before a leading
  separator, after a trailing separator, and on the empty string.
- ISO-8601 timestamp strings compare like their time values, so
  timestamps are modelled as `Nat`.
- SQLite `LIKE` is case-insensitive for ASCII, so the `LIKE '%p%'`
  pre-filters are modelled by case-insensitive substring containment.
- `ORDER BY` and JS `Array.prototype.sort` are modelled with the stable
  `List.insertionSort` on the list in table (insertion) order.
-/

/-- JS `s.toLowerCase()` restricted to ASCII: lower every character. -/
def jsToLower (s : String) : String := String.mk (s.data.map Char.toLower)

/-- Worker for `jsSplitWs`: `inRun` records whether we are inside a run of
whitespace (so that a run contributes a single split point). -/
def splitWsGo : Bool → List Char → List Char → List String
  | _, [], acc => [String.mk acc.reverse]
  | inRun, c :: rest, acc =>
    if c.isWhitespace then
      if inRun then splitWsGo true rest acc
      else String.mk acc.reverse :: splitWsGo true rest []
    else splitWsGo false rest (c :: acc)

/-- JS `s.split(/\s+/)`: split on runs of whitespace.  Like the JS
original it returns `[""]` on the empty string, a leading `""` when the
string starts with whitespace and a trailing `""` when it ends with one;
it never returns the empty list. -/
def jsSplitWs (s : String) : List String := splitWsGo false s.data []

/-- `pat` occurs as a contiguous sublist of `hay`. -/
def charsContain (hay pat : List Char) : Bool :=
  (List.range (hay.length + 1)).any (fun i => pat.isPrefixOf (hay.drop i))

/-- JS `s.includes(pat)`: substring containment (case-sensitive). -/
def strIncludes (s pat : String) : Bool := charsContain s.data pat.data

/-- SQLite `content LIKE '%' || pat || '%'`: substring containment,
case-insensitive for ASCII. -/
def sqlLikeContains (s pat : String) : Bool :=
  strIncludes (jsToLower s) (jsToLower pat)

/-- JS `s.slice(0, n)`: the first `n` characters. -/
def strSlice (s : String) (n : Nat) : String := String.mk (s.data.take n)

/-- JS `s.trim()`: strip whitespace from both ends. -/
def jsTrim (s : String) : String :=
  String.mk (((s.data.dropWhile Char.isWhitespace).reverse.dropWhile
    Char.isWhitespace).reverse)

/-- JS `s || dflt` for strings: the empty string is falsy. -/
def jsOrStr (s dflt : String) : String := if s = "" then dflt else s

/-- JS `x || dflt` for an optional string: `undefined`/`null` and `""`
are falsy. -/
def jsOrOptStr (x : Option String) (dflt : String) : String :=
  match x with
  | none => dflt
  | some s => jsOrStr s dflt

/-- JS `x || dflt` for an optional number: `undefined`/`null` and `0`
are falsy. -/
def jsOrInt (x : Option Int) (dflt : Int) : Int :=
  match x with
  | none => dflt
  | some n => if n = 0 then dflt else n

/-!
## Similarity engine

`calculateTextSimilarity` from src/memory-store.ts (the query-coverage
policy used by search and the dedup lookup) and `simpleTextSimilarity`
from src/ollama-client.ts (the Jaccard fallback).  JS numbers are
modelled as `ℚ`; the divisions here are exact.
-/

/-- One query word "matches" if some content word contains it or it
contains some content word (`contentWord.includes(queryWord) ||
queryWord.includes(contentWord)`). -/
def wordMatches (content : List String) (queryWord : String) : Bool :=
  content.any (fun contentWord =>
    strIncludes contentWord queryWord || strIncludes queryWord contentWord)

/-- `calculateTextSimilarity` (src/memory-store.ts lines 73-87): split
both texts on whitespace after lowercasing, count the query words that
match some content word (the `matches` loop), and return
`matches / query.length` when `query.length > 0`, else `0`. -/
def calculateTextSimilarity (text1 text2 : String) : ℚ :=
  let query := jsSplitWs (jsToLower text1)
  let content := jsSplitWs (jsToLower text2)
  let numMatches : Nat :=
    query.foldl (fun acc queryWord =>
      if wordMatches content queryWord then acc + 1 else acc) 0
  if query.length > 0 then (numMatches : ℚ) / (query.length : ℚ) else 0

/-- `simpleTextSimilarity` (src/ollama-client.ts lines 19-27): Jaccard
index of the two word sets.  JS `Set` semantics are modelled with
`List.dedup`; only the sizes of intersection and union are used. -/
def simpleTextSimilarity (text1 text2 : String) : ℚ :=
  let words1 := (jsSplitWs (jsToLower text1)).dedup
  let words2 := (jsSplitWs (jsToLower text2)).dedup
  let inter := words1.filter (fun x => words2.contains x)
  let union := (words1 ++ words2).dedup
  (inter.length : ℚ) / (union.length : ℚ)

/-- The query-coverage score as the specification words it: the number of
query words that are a substring of some content word or vice versa
(after lowercasing and whitespace-splitting) divided by the number of
query words.  Stated with `countP` instead of the source's counting
loop; compared with `calculateTextSimilarity` in claim C6. -/
def specCoverageScore (text1 text2 : String) : ℚ :=
  let query := jsSplitWs (jsToLower text1)
  let content := jsSplitWs (jsToLower text2)
  (query.countP (wordMatches content) : ℚ) / (query.length : ℚ)

/-!
## Data model

Rows as stored in the SQLite tables (src/memory-store.ts `createTables`).
Timestamps (`timestamp`, `created_at`, `updated_at`) are `Nat` (ISO
strings compare like their time values).  `tags` is the raw TEXT column
(JSON-encoded or NULL).
-/

/-- A row of the `memories` table. -/
structure MemoryRow where
  id : String
  content : String
  originalContent : Option String
  context : String
  importance : Int
  timestamp : Nat
  source : String
  project : Option String
  category : Option String
  tags : Option String
  createdAtCol : Nat
  updatedAtCol : Nat
deriving DecidableEq

/-- A row of the `todos` table. -/
structure TodoRow where
  id : String
  content : String
  status : String
  priority : String
  project : Option String
  context : Option String
  tags : Option String
  createdAtCol : Nat
  updatedAtCol : Nat
deriving DecidableEq

/-- The database owned by the store. -/
structure Db where
  memories : List MemoryRow
  todos : List TodoRow
deriving DecidableEq

/-- The `tags` field of a `StoredMemory` value at runtime: the freshly
inserted object carries the caller's array, while objects built by
spreading a raw SQL row carry the raw JSON text unparsed (the TS cast
does not convert it). -/
inductive TagsVal where
  | arr (l : List String)
  | raw (s : String)
deriving DecidableEq

/-- The `StoredMemory` objects returned by the store operations. -/
structure StoredMemory where
  id : String
  content : String
  originalContent : Option String
  context : String
  importance : Int
  timestamp : Nat
  source : String
  project : Option String
  category : Option String
  tags : Option TagsVal
  createdAt : Nat
  updatedAt : Nat
deriving DecidableEq

/-- `MemoryData` accepted by `addMemory` (src/types `MemoryData`, with
the fields that `addMemory` destructures with defaults made optional). -/
structure MemoryData where
  content : String
  originalContent : Option String := none
  context : Option String := none
  importance : Option Int := none
  timestamp : Nat
  source : Option String := none
  project : Option String := none
  category : Option String := none
  tags : Option (List String) := none
deriving DecidableEq

/-- Spreading a raw SQL row into a `StoredMemory`
(`{...memory, createdAt: memory.createdAt || memory.timestamp, ...}`):
the raw row has snake_case `created_at`/`updated_at` and no
`createdAt`/`updatedAt` properties, so both fall back to the row's
`timestamp` column, and `tags` stays the raw column text. -/
def rowToStored (r : MemoryRow) : StoredMemory :=
  { id := r.id, content := r.content, originalContent := r.originalContent,
    context := r.context, importance := r.importance,
    timestamp := r.timestamp, source := r.source, project := r.project,
    category := r.category, tags := r.tags.map TagsVal.raw,
    createdAt := r.timestamp, updatedAt := r.timestamp }

/-- `ORDER BY created_at DESC`, stable in table order on ties. -/
def createdDesc (a b : MemoryRow) : Prop := b.createdAtCol ≤ a.createdAtCol

instance : DecidableRel createdDesc := fun a b => by
  unfold createdDesc; infer_instance

/-- JSON escaping of a character inside a string literal
(`JSON.stringify`); only the quote and backslash escapes are needed for
the tag arrays in scope. -/
def jsonEscapeChar (c : Char) : List Char :=
  if c = '"' ∨ c = '\\' then ['\\', c] else [c]

/-- A JSON string literal. -/
def jsonQuote (s : String) : String :=
  "\"" ++ String.mk (s.data.map jsonEscapeChar).flatten ++ "\""

/-- `JSON.stringify` of an array of strings (how `tags` is written). -/
def stringifyStringArray (l : List String) : String :=
  "[" ++ String.intercalate "," (l.map jsonQuote) ++ "]"

/-!
## Memory store operations (src/memory-store.ts)

Each operation takes the store state `db? : Option Db` (`none` before
`initialize` has completed) and returns its result together with the new
state.  Fresh ids (`generateId`) and clock readings (`new Date()`,
`CURRENT_TIMESTAMP`) are explicit parameters.
-/

/-- `findSimilarMemory` (lines 164-193): among the 5 most recent rows in
the same context whose content contains (SQL `LIKE`, so
case-insensitively) the first 50 characters of the new content, the
first one whose coverage similarity with the new content strictly
exceeds the threshold (default 0.9), spread into a `StoredMemory`. -/
def findSimilarMemory (rows : List MemoryRow) (content context : String)
    (threshold : ℚ := 9/10) : Option StoredMemory :=
  let candidates :=
    ((rows.filter (fun r =>
        r.context = context && sqlLikeContains r.content (strSlice content 50))
      ).insertionSort createdDesc).take 5
  (candidates.find? (fun r =>
    threshold < calculateTextSimilarity content r.content)).map rowToStored

/-- The column names of the `memories` table (`createTables`). -/
def memoriesColumns : List String :=
  ["id", "content", "original_content", "context", "importance",
   "timestamp", "source", "project", "category", "tags", "embedding",
   "created_at", "updated_at"]

/-- The dedup-merge call of `updateMemory` (lines 143-162, called at
lines 239-243).  `updateMemory` splices the keys of its updates object
into the SQL as `SET key = ?`; the call site passes the keys
`content`, `importance` and `updatedAt`.  SQLite executes the UPDATE
only when every key is a column of the `memories` table; `updatedAt` is
not one (the column is `updated_at`), so the statement is rejected. -/
def updateMemoryDedupMerge (rows : List MemoryRow) (id : String)
    (content : String) (importance : Int) (now : Nat) :
    Except String (List MemoryRow) :=
  if ["content", "importance", "updatedAt"].all
      (fun k => memoriesColumns.contains k) then
    Except.ok (rows.map (fun r =>
      if r.id = id then
        { r with
            content := content
            importance := importance
            updatedAtCol := now }
      else r))
  else
    Except.error "SQLITE_ERROR: no such column: updatedAt"

/-- The row inserted by `addMemory`'s INSERT (lines 258-275);
`created_at`/`updated_at` take the schema default CURRENT_TIMESTAMP. -/
def mkInsertRow (freshId : String) (now : Nat) (m : MemoryData) : MemoryRow :=
  { id := freshId, content := m.content,
    originalContent := m.originalContent,
    context := m.context.getD "general",
    importance := m.importance.getD 5,
    timestamp := m.timestamp, source := m.source.getD "manual",
    project := m.project, category := m.category,
    tags := m.tags.map stringifyStringArray,
    createdAtCol := now, updatedAtCol := now }

/-- The object `addMemory` returns after a fresh insert (lines 277-290). -/
def storedOfInsert (freshId : String) (now : Nat) (m : MemoryData) :
    StoredMemory :=
  { id := freshId, content := m.content,
    originalContent := m.originalContent,
    context := m.context.getD "general",
    importance := m.importance.getD 5,
    timestamp := m.timestamp, source := m.source.getD "manual",
    project := m.project, category := m.category,
    tags := (m.tags.map TagsVal.arr),
    createdAt := now, updatedAt := now }

/-- `addMemory` (lines 218-291).  `dedup` is
`config.deduplication !== false`.  When a similar memory is found the
code updates it through `updateMemoryDedupMerge` (which SQLite rejects,
see there) and would return the spread `existing` with the new content
and the caller's (not the merged) importance; otherwise it inserts a
fresh row. -/
def addMemory (dedup : Bool) (db? : Option Db) (freshId : String)
    (now : Nat) (m : MemoryData) :
    Except String StoredMemory × Option Db :=
  match db? with
  | none => (Except.error "Database not initialized", none)
  | some db =>
    let context := m.context.getD "general"
    let importance := m.importance.getD 5
    match (if dedup then findSimilarMemory db.memories m.content context
           else none) with
    | some existing =>
      match updateMemoryDedupMerge db.memories existing.id m.content
          (max existing.importance importance) now with
      | Except.ok newRows =>
        (Except.ok { existing with
            content := m.content
            importance := importance
            updatedAt := now },
         some { db with memories := newRows })
      | Except.error e => (Except.error e, some db)
    | none =>
      (Except.ok (storedOfInsert freshId now m),
       some { db with memories := db.memories ++ [mkInsertRow freshId now m] })

/-- Search options (src/types `SearchOptions` with `searchMemories`'s
destructuring defaults). -/
structure SearchOptions where
  limit : Nat := 5
  context : Option String := none
  threshold : ℚ := 1/10
deriving DecidableEq

/-- `ORDER BY importance DESC, created_at DESC`, stable in table order. -/
def importanceCreatedDesc (a b : MemoryRow) : Prop :=
  b.importance < a.importance ∨
    (a.importance = b.importance ∧ b.createdAtCol ≤ a.createdAtCol)

instance : DecidableRel importanceCreatedDesc := fun a b => by
  unfold importanceCreatedDesc; infer_instance

/-- A search result: a stored memory plus its similarity score. -/
structure ScoredMemory extends StoredMemory where
  similarity : ℚ
deriving DecidableEq

/-- JS `(a, b) => b.similarity - a.similarity`: descending similarity. -/
def simOrder (a b : ScoredMemory) : Prop := b.similarity ≤ a.similarity

instance : DecidableRel simOrder := fun a b => by
  unfold simOrder; infer_instance

instance : IsTotal ScoredMemory simOrder :=
  ⟨fun a b => le_total b.similarity a.similarity⟩

instance : IsTrans ScoredMemory simOrder :=
  ⟨fun _ _ _ hab hbc => le_trans hbc hab⟩

/-- The WHERE clause of `searchMemories` (lines 301-317): optional exact
context match, and at least one lowercased query token contained in the
content (the `LIKE` conditions are joined with OR). -/
def sqlSearchFilter (query : String) (ctx : Option String)
    (r : MemoryRow) : Bool :=
  (match ctx with
   | some c => r.context = c
   | none => true) &&
  ((jsSplitWs (jsToLower query)).any (fun w => sqlLikeContains r.content w))

/-- Scoring one candidate row (lines 325-331). -/
def scoreRow (query : String) (r : MemoryRow) : ScoredMemory :=
  { toStoredMemory := rowToStored r,
    similarity := calculateTextSimilarity query r.content }

/-- `searchMemories` (lines 293-334): SQL pre-filter, order by
importance then creation time, LIMIT, then score, filter by threshold
and sort by similarity descending. -/
def searchMemories (db? : Option Db) (query : String)
    (opts : SearchOptions) :
    Except String (List ScoredMemory) × Option Db :=
  match db? with
  | none => (Except.error "Database not initialized", none)
  | some db =>
    let candidates :=
      ((db.memories.filter (sqlSearchFilter query opts.context)
        ).insertionSort importanceCreatedDesc).take opts.limit
    let kept := (candidates.map (scoreRow query)).filter
      (fun s => opts.threshold ≤ s.similarity)
    (Except.ok (kept.insertionSort simOrder), some db)

/-- Options of `getMemories` with its destructuring defaults. -/
structure GetMemoriesOptions where
  context : Option String := none
  limit : Nat := 10
  since : Option Nat := none
deriving DecidableEq

/-- `getMemories` (lines 336-364). -/
def getMemories (db? : Option Db) (opts : GetMemoriesOptions) :
    Except String (List StoredMemory) × Option Db :=
  match db? with
  | none => (Except.error "Database not initialized", none)
  | some db =>
    let rows := db.memories.filter (fun r =>
      (match opts.context with
       | some c => r.context = c
       | none => true) &&
      (match opts.since with
       | some s => s ≤ r.timestamp
       | none => true))
    (Except.ok (((rows.insertionSort createdDesc).take opts.limit).map
      rowToStored), some db)

/-- `deleteMemory` (lines 366-371): DELETE by id, report whether any row
was removed (`result.changes > 0`). -/
def deleteMemory (db? : Option Db) (id : String) :
    Except String Bool × Option Db :=
  match db? with
  | none => (Except.error "Database not initialized", none)
  | some db =>
    let remaining := db.memories.filter (fun r => ¬ r.id = id)
    (Except.ok (remaining.length < db.memories.length),
     some { db with memories := remaining })

/-- `getMemoryById` (lines 373-387). -/
def getMemoryById (db? : Option Db) (id : String) :
    Except String (Option StoredMemory) × Option Db :=
  match db? with
  | none => (Except.error "Database not initialized", none)
  | some db =>
    (Except.ok ((db.memories.find? (fun r => r.id = id)).map rowToStored),
     some db)

/-- `close` (lines 779-784): closes the handle when one is open and
otherwise does nothing; it never throws for an uninitialized store. -/
def closeStore (db? : Option Db) : Except String Unit × Option Db :=
  match db? with
  | none => (Except.ok (), none)
  | some db => (Except.ok (), some db)

/-!
## JSON (`JSON.parse` / tag deserialization)

`exportMemoryBank`, `listTodos`, `getTodoById` deserialize the `tags`
column with `try { JSON.parse(t.tags) } catch { return undefined }`.
The parser below follows the JSON grammar (value = null / true / false /
number / string / array / object); parse failure models the thrown
exception.  `\u` escapes that do not denote a valid code point are
mapped to the default character, which does not affect validity.
-/

/-- A JSON value; numbers keep their literal text (no claim inspects
numeric values). -/
inductive Json where
  | jnull
  | jbool (b : Bool)
  | jnum (lit : String)
  | jstr (s : String)
  | jarr (elems : List Json)
  | jobj (fields : List (String × Json))

/-- Skip JSON insignificant whitespace. -/
def skipJsonWs (cs : List Char) : List Char :=
  cs.dropWhile (fun c => c = ' ' || c = '\t' || c = '\n' || c = '\r')

/-- Hexadecimal digit value. -/
def hexVal? (c : Char) : Option Nat :=
  if '0' ≤ c ∧ c ≤ '9' then some (c.toNat - '0'.toNat)
  else if 'a' ≤ c ∧ c ≤ 'f' then some (c.toNat - 'a'.toNat + 10)
  else if 'A' ≤ c ∧ c ≤ 'F' then some (c.toNat - 'A'.toNat + 10)
  else none

/-- Parse the body of a JSON string literal (after the opening quote),
returning the decoded string and the input after the closing quote. -/
def parseJsonStringBody : List Char → List Char → Option (String × List Char)
  | [], _ => none
  | '"' :: rest, acc => some (String.mk acc.reverse, rest)
  | '\\' :: '"' :: rest, acc => parseJsonStringBody rest ('"' :: acc)
  | '\\' :: '\\' :: rest, acc => parseJsonStringBody rest ('\\' :: acc)
  | '\\' :: '/' :: rest, acc => parseJsonStringBody rest ('/' :: acc)
  | '\\' :: 'b' :: rest, acc => parseJsonStringBody rest (Char.ofNat 8 :: acc)
  | '\\' :: 'f' :: rest, acc => parseJsonStringBody rest (Char.ofNat 12 :: acc)
  | '\\' :: 'n' :: rest, acc => parseJsonStringBody rest ('\n' :: acc)
  | '\\' :: 'r' :: rest, acc => parseJsonStringBody rest ('\r' :: acc)
  | '\\' :: 't' :: rest, acc => parseJsonStringBody rest ('\t' :: acc)
  | '\\' :: 'u' :: h1 :: h2 :: h3 :: h4 :: rest, acc =>
    (match hexVal? h1, hexVal? h2, hexVal? h3, hexVal? h4 with
     | some a, some b, some c, some d =>
       parseJsonStringBody rest
         (Char.ofNat (((a * 16 + b) * 16 + c) * 16 + d) :: acc)
     | _, _, _, _ => none)
  | '\\' :: _, _ => none
  | c :: rest, acc =>
    if c.toNat < 32 then none else parseJsonStringBody rest (c :: acc)

/-- Parse a JSON number literal (sign, integer part without leading
zeros, optional fraction, optional exponent); returns the literal text
and the remaining input. -/
def parseJsonNumber (cs : List Char) : Option (String × List Char) :=
  let (negChars, cs1) :=
    match cs with
    | '-' :: r => (['-'], r)
    | _ => (([] : List Char), cs)
  let intDs := cs1.takeWhile Char.isDigit
  let cs2 := cs1.dropWhile Char.isDigit
  if intDs = [] then none
  else if 1 < intDs.length ∧ intDs.head? = some '0' then none
  else
    let (fracChars, cs3) :=
      match cs2 with
      | '.' :: r =>
        let ds := r.takeWhile Char.isDigit
        if ds = [] then (([] : List Char), cs2)
        else ('.' :: ds, r.dropWhile Char.isDigit)
      | _ => (([] : List Char), cs2)
    let (expChars, cs4) :=
      match cs3 with
      | e :: r =>
        if e = 'e' ∨ e = 'E' then
          let (sgn, r2) :=
            match r with
            | '+' :: rr => ((['+'] : List Char), rr)
            | '-' :: rr => ((['-'] : List Char), rr)
            | _ => (([] : List Char), r)
          let ds := r2.takeWhile Char.isDigit
          if ds = [] then (([] : List Char), cs3)
          else (e :: (sgn ++ ds), r2.dropWhile Char.isDigit)
        else (([] : List Char), cs3)
      | [] => (([] : List Char), cs3)
    some (String.mk (negChars ++ intDs ++ fracChars ++ expChars), cs4)

/-- Parser modes: a value, the items of an array, or the members of an
object.  `allowEnd` is false right after a comma (JSON forbids trailing
commas). -/
inductive JsonPMode where
  | value
  | arrayItems (allowEnd : Bool)
  | objectItems (allowEnd : Bool)
deriving DecidableEq

/-- Intermediate parser output for each mode. -/
inductive JsonPOut where
  | val (j : Json)
  | arr (l : List Json)
  | obj (l : List (String × Json))

/-- The recursive JSON parser; the fuel bounds the recursion depth and
`jsJsonParse` supplies more than any input can need. -/
def parseJsonGo : Nat → JsonPMode → List Char → Option (JsonPOut × List Char)
  | 0, _, _ => none
  | Nat.succ fuel, JsonPMode.value, cs =>
    (match skipJsonWs cs with
     | 'n' :: 'u' :: 'l' :: 'l' :: rest => some (JsonPOut.val Json.jnull, rest)
     | 't' :: 'r' :: 'u' :: 'e' :: rest =>
       some (JsonPOut.val (Json.jbool true), rest)
     | 'f' :: 'a' :: 'l' :: 's' :: 'e' :: rest =>
       some (JsonPOut.val (Json.jbool false), rest)
     | '"' :: rest =>
       (match parseJsonStringBody rest [] with
        | some (s, r) => some (JsonPOut.val (Json.jstr s), r)
        | none => none)
     | '[' :: rest =>
       (match parseJsonGo fuel (JsonPMode.arrayItems true) rest with
        | some (JsonPOut.arr l, r) => some (JsonPOut.val (Json.jarr l), r)
        | _ => none)
     | '{' :: rest =>
       (match parseJsonGo fuel (JsonPMode.objectItems true) rest with
        | some (JsonPOut.obj l, r) => some (JsonPOut.val (Json.jobj l), r)
        | _ => none)
     | other =>
       (match parseJsonNumber other with
        | some (lit, r) => some (JsonPOut.val (Json.jnum lit), r)
        | none => none))
  | Nat.succ fuel, JsonPMode.arrayItems allowEnd, cs =>
    (match skipJsonWs cs with
     | ']' :: rest => if allowEnd then some (JsonPOut.arr [], rest) else none
     | cs' =>
       (match parseJsonGo fuel JsonPMode.value cs' with
        | some (JsonPOut.val v, r) =>
          (match skipJsonWs r with
           | ',' :: r2 =>
             (match parseJsonGo fuel (JsonPMode.arrayItems false) r2 with
              | some (JsonPOut.arr vs, r3) =>
                some (JsonPOut.arr (v :: vs), r3)
              | _ => none)
           | ']' :: r2 => some (JsonPOut.arr [v], r2)
           | _ => none)
        | _ => none))
  | Nat.succ fuel, JsonPMode.objectItems allowEnd, cs =>
    (match skipJsonWs cs with
     | '}' :: rest => if allowEnd then some (JsonPOut.obj [], rest) else none
     | '"' :: rest =>
       (match parseJsonStringBody rest [] with
        | some (k, r) =>
          (match skipJsonWs r with
           | ':' :: r2 =>
             (match parseJsonGo fuel JsonPMode.value r2 with
              | some (JsonPOut.val v, r3) =>
                (match skipJsonWs r3 with
                 | ',' :: r4 =>
                   (match parseJsonGo fuel (JsonPMode.objectItems false) r4 with
                    | some (JsonPOut.obj ps, r5) =>
                      some (JsonPOut.obj ((k, v) :: ps), r5)
                    | _ => none)
                 | '}' :: r4 => some (JsonPOut.obj [(k, v)], r4)
                 | _ => none)
              | _ => none)
           | _ => none)
        | none => none)
     | _ => none)

/-- `JSON.parse(s)`: parse one value and require only whitespace after
it; `none` models the thrown exception. -/
def jsJsonParse (s : String) : Option Json :=
  match parseJsonGo (2 * s.data.length + 4) JsonPMode.value s.data with
  | some (JsonPOut.val j, rest) =>
    if skipJsonWs rest = [] then some j else none
  | _ => none

/-- Read a parsed value back as a string array.  The TS code casts the
parsed value with `as string[]` without checking; values that parse but
are not arrays of strings cannot be represented in the typed model and
are mapped to `none` (no claim depends on them). -/
def decodeStringArray : Json → Option (List String)
  | Json.jarr elems =>
    elems.mapM (fun e =>
      match e with
      | Json.jstr s => some s
      | _ => none)
  | _ => none

/-- The shared tag-deserialization pattern
(`t.tags ? (() => { try { return JSON.parse(t.tags) } catch { return
undefined } })() : undefined`), appearing verbatim in
`exportMemoryBank`, `listTodos` and `getTodoById`. -/
def tagsFromColumn (tags : Option String) : Option (List String) :=
  tags.bind (fun s => (jsJsonParse s).bind decodeStringArray)

/-!
## Remaining store operations
-/

/-- JS `x || null` for a string-valued column value. -/
def jsOrNullStr (x : Option String) : Option String :=
  match x with
  | some s => if s = "" then none else some s
  | none => none

/-- `StoredTodo` objects returned by the todo operations. -/
structure StoredTodo where
  id : String
  content : String
  status : String
  priority : String
  project : Option String
  context : Option String
  tags : Option (List String)
  createdAt : Nat
  updatedAt : Nat
deriving DecidableEq

/-- `TodoData` as consumed by `addTodo` (fields it reads). -/
structure TodoData where
  content : String
  status : Option String := none
  priority : Option String := none
  project : Option String := none
  context : Option String := none
  tags : Option (List String) := none
deriving DecidableEq

/-- Reading a raw todo row back (`t.project || undefined`, tags
deserialized). -/
def rowToStoredTodo (r : TodoRow) : StoredTodo :=
  { id := r.id, content := r.content, status := r.status,
    priority := r.priority, project := jsOrNullStr r.project,
    context := jsOrNullStr r.context, tags := tagsFromColumn r.tags,
    createdAt := r.createdAtCol, updatedAt := r.updatedAtCol }

/-- `addTodo` (lines 580-613). -/
def addTodo (db? : Option Db) (freshId : String) (now : Nat)
    (t : TodoData) : Except String StoredTodo × Option Db :=
  match db? with
  | none => (Except.error "Database not initialized", none)
  | some db =>
    let row : TodoRow :=
      { id := freshId, content := t.content,
        status := jsOrOptStr t.status "pending",
        priority := jsOrOptStr t.priority "medium",
        project := jsOrNullStr t.project,
        context := jsOrNullStr t.context,
        tags := t.tags.map stringifyStringArray,
        createdAtCol := now, updatedAtCol := now }
    (Except.ok
      { id := freshId, content := t.content,
        status := jsOrOptStr t.status "pending",
        priority := jsOrOptStr t.priority "medium",
        project := t.project, context := t.context, tags := t.tags,
        createdAt := now, updatedAt := now },
     some { db with todos := db.todos ++ [row] })

/-- `ORDER BY created_at DESC` on todo rows. -/
def todoCreatedDesc (a b : TodoRow) : Prop := b.createdAtCol ≤ a.createdAtCol

instance : DecidableRel todoCreatedDesc := fun a b => by
  unfold todoCreatedDesc; infer_instance

/-- Options of `listTodos`; every filter and the LIMIT clause are added
only when the option is truthy, so `""` (and limit `0`) disable them. -/
structure ListTodosArgs where
  status : Option String := none
  priority : Option String := none
  project : Option String := none
  context : Option String := none
  limit : Option Nat := none
deriving DecidableEq

/-- A truthy option filters a TEXT column by equality. -/
def todoColFilter (opt : Option String) (col : String) : Bool :=
  match opt with
  | some s => if s = "" then true else col = s
  | none => true

/-- A truthy option filters a nullable TEXT column by equality (NULL
never equals). -/
def todoOptColFilter (opt : Option String) (col : Option String) : Bool :=
  match opt with
  | some s => if s = "" then true else col = some s
  | none => true

/-- `listTodos` (lines 615-679). -/
def listTodos (db? : Option Db) (opts : ListTodosArgs) :
    Except String (List StoredTodo) × Option Db :=
  match db? with
  | none => (Except.error "Database not initialized", none)
  | some db =>
    let rows := db.todos.filter (fun r =>
      todoColFilter opts.status r.status &&
      todoColFilter opts.priority r.priority &&
      todoOptColFilter opts.project r.project &&
      todoOptColFilter opts.context r.context)
    let sorted := rows.insertionSort todoCreatedDesc
    let limited :=
      match opts.limit with
      | some l => if l = 0 then sorted else sorted.take l
      | none => sorted
    (Except.ok (limited.map rowToStoredTodo), some db)

/-- The partial updates accepted by `updateTodo`: a present field is
written (`project`/`context`/`tags` through `|| null`). -/
structure TodoUpdates where
  content : Option String := none
  status : Option String := none
  priority : Option String := none
  project : Option String := none
  context : Option String := none
  tags : Option (List String) := none
deriving DecidableEq

/-- Applying `updateTodo`'s UPDATE statement to a row. -/
def applyTodoUpdates (u : TodoUpdates) (now : Nat) (r : TodoRow) : TodoRow :=
  { r with
      content := u.content.getD r.content
      status := u.status.getD r.status
      priority := u.priority.getD r.priority
      project := match u.project with
                 | some p => jsOrNullStr (some p)
                 | none => r.project
      context := match u.context with
                 | some c => jsOrNullStr (some c)
                 | none => r.context
      tags := match u.tags with
              | some l => some (stringifyStringArray l)
              | none => r.tags
      updatedAtCol := now }

/-- `updateTodo` (lines 681-732): read the existing row (null when the
id is absent), UPDATE the present fields plus `updated_at`, and return a
fresh read. -/
def updateTodo (db? : Option Db) (id : String) (u : TodoUpdates)
    (now : Nat) : Except String (Option StoredTodo) × Option Db :=
  match db? with
  | none => (Except.error "Database not initialized", none)
  | some db =>
    match db.todos.find? (fun r => r.id = id) with
    | none => (Except.ok none, some db)
    | some _ =>
      let newTodos := db.todos.map (fun r =>
        if r.id = id then applyTodoUpdates u now r else r)
      (Except.ok ((newTodos.find? (fun r => r.id = id)).map rowToStoredTodo),
       some { db with todos := newTodos })

/-- `deleteTodo` (lines 734-739). -/
def deleteTodo (db? : Option Db) (id : String) :
    Except String Bool × Option Db :=
  match db? with
  | none => (Except.error "Database not initialized", none)
  | some db =>
    let remaining := db.todos.filter (fun r => ¬ r.id = id)
    (Except.ok (remaining.length < db.todos.length),
     some { db with todos := remaining })

/-- `getTodoById` (lines 741-777). -/
def getTodoById (db? : Option Db) (id : String) :
    Except String (Option StoredTodo) × Option Db :=
  match db? with
  | none => (Except.error "Database not initialized", none)
  | some db =>
    (Except.ok ((db.todos.find? (fun r => r.id = id)).map rowToStoredTodo),
     some db)

/-- Aggregate row of `listProjects`. -/
structure ProjectMemoryStats where
  project : String
  totalMemories : Nat
  categories : List String
  lastUpdated : Nat
deriving DecidableEq

/-- `ORDER BY last_updated DESC`. -/
def lastUpdatedDesc (a b : ProjectMemoryStats) : Prop :=
  b.lastUpdated ≤ a.lastUpdated

instance : DecidableRel lastUpdatedDesc := fun a b => by
  unfold lastUpdatedDesc; infer_instance

/-- `listProjects` (lines 422-448): group the rows with a non-NULL
project; per group the row count, the distinct non-NULL categories
(`GROUP_CONCAT(DISTINCT category)` then split and Boolean-filtered,
modelled as the distinct non-empty category list) and the maximal
`updated_at`; ordered by `last_updated` descending. -/
def listProjects (db? : Option Db) :
    Except String (List ProjectMemoryStats) × Option Db :=
  match db? with
  | none => (Except.error "Database not initialized", none)
  | some db =>
    let projects := (db.memories.filterMap (fun r => r.project)).dedup
    let stats := projects.map (fun p =>
      let rows := db.memories.filter (fun r => r.project = some p)
      { project := p, totalMemories := rows.length,
        categories :=
          ((rows.filterMap (fun r => r.category)).dedup).filter (fun c => ¬ c = ""),
        lastUpdated := (rows.map (fun r => r.updatedAtCol)).foldl max 0 })
    (Except.ok (stats.insertionSort lastUpdatedDesc), some db)

/-- `listProjectFiles` (lines 450-464): the distinct non-NULL categories
of a project, ordered by category. -/
def listProjectFiles (db? : Option Db) (project : String) :
    Except String (List String) × Option Db :=
  match db? with
  | none => (Except.error "Database not initialized", none)
  | some db =>
    let cats := ((db.memories.filter (fun r => r.project = some project)
      ).filterMap (fun r => r.category)).dedup
    (Except.ok (cats.insertionSort (fun a b => a ≤ b)), some db)

/-- One entry of the `memories` argument of `updateMemoryBank`. -/
structure BankMemory where
  content : String
  importance : Option Int := none
  tags : Option (List String) := none
deriving DecidableEq

/-- The row inserted for one bank entry (lines 477-500): context is
`category || 'general'`, importance `memory.importance || 5`, source
`manual`, and `created_at`/`updated_at` are set explicitly. -/
def bankRow (project : String) (category : Option String)
    (idGen : Nat → String) (now : Nat) (k : Nat) (m : BankMemory) :
    MemoryRow :=
  { id := idGen k, content := m.content, originalContent := none,
    context := jsOrOptStr category "general",
    importance := jsOrInt m.importance 5,
    timestamp := now, source := "manual",
    project := some project, category := category,
    tags := m.tags.map stringifyStringArray,
    createdAtCol := now, updatedAtCol := now }

/-- The insert loop of `updateMemoryBank` inside the transaction.
`failAt` injects a storage failure at the given batch index (modelling a
disk/connection error); the rows accumulate in the pending transaction
and an error aborts the whole loop. -/
def runBankInserts (failAt : Option Nat) (project : String)
    (category : Option String) (idGen : Nat → String) (now : Nat) :
    Nat → List BankMemory → Except String (List MemoryRow)
  | _, [] => Except.ok []
  | k, m :: rest =>
    if failAt = some k then Except.error "SQLITE_ERROR: insert failed"
    else
      match runBankInserts failAt project category idGen now (k + 1) rest with
      | Except.ok rows =>
        Except.ok (bankRow project category idGen now k m :: rows)
      | Except.error e => Except.error e

/-- The rows a fully successful bank update appends (specification
helper: `runBankInserts` without failures). -/
def bankRows (project : String) (category : Option String)
    (idGen : Nat → String) (now : Nat) :
    Nat → List BankMemory → List MemoryRow
  | _, [] => []
  | k, m :: rest =>
    bankRow project category idGen now k m ::
      bankRows project category idGen now (k + 1) rest

/-- `updateMemoryBank` (lines 466-508): BEGIN TRANSACTION, insert every
entry, COMMIT; on any failure ROLLBACK and rethrow.  COMMIT is the merge
of the pending rows into the table; ROLLBACK discards them, leaving the
state unchanged. -/
def updateMemoryBank (failAt : Option Nat) (db? : Option Db)
    (project : String) (category : Option String)
    (memories : List BankMemory) (idGen : Nat → String) (now : Nat) :
    Except String Unit × Option Db :=
  match db? with
  | none => (Except.error "Database not initialized", none)
  | some db =>
    match runBankInserts failAt project category idGen now 0 memories with
    | Except.ok newRows =>
      (Except.ok (), some { db with memories := db.memories ++ newRows })
    | Except.error e => (Except.error e, some db)

/-- A memory as returned by `exportMemoryBank` (snake_case columns read
back properly, tags deserialized). -/
structure ExportedMemory where
  id : String
  content : String
  originalContent : Option String
  context : String
  importance : Int
  timestamp : Nat
  source : String
  project : Option String
  category : Option String
  tags : Option (List String)
  createdAt : Nat
  updatedAt : Nat
deriving DecidableEq

/-- The mapping of a raw row in `exportMemoryBank` (lines 547-568). -/
def exportRow (r : MemoryRow) : ExportedMemory :=
  { id := r.id, content := r.content,
    originalContent := r.originalContent, context := r.context,
    importance := r.importance, timestamp := r.timestamp,
    source := r.source, project := r.project, category := r.category,
    tags := tagsFromColumn r.tags,
    createdAt := r.createdAtCol, updatedAt := r.updatedAtCol }

/-- The value returned by `exportMemoryBank`. -/
structure MemoryBankExport where
  project : Option String
  category : Option String
  format : String
  exportedAt : Nat
  memories : List ExportedMemory
deriving DecidableEq

/-- `exportMemoryBank` (lines 510-577): filter by truthy project and
category, order by `created_at` descending, deserialize the rows. -/
def exportMemoryBank (db? : Option Db) (project category : Option String)
    (format : String) (now : Nat) :
    Except String MemoryBankExport × Option Db :=
  match db? with
  | none => (Except.error "Database not initialized", none)
  | some db =>
    let rows := db.memories.filter (fun r =>
      (match project with
       | some p => if p = "" then true else r.project = some p
       | none => true) &&
      (match category with
       | some c => if c = "" then true else r.category = some c
       | none => true))
    (Except.ok
      { project := project, category := category, format := format,
        exportedAt := now,
        memories := (rows.insertionSort createdDesc).map exportRow },
     some db)

/-!
## Protocol bridge (src/index.ts and src/http-server.ts)

Both transports build tool handlers over the same store.  The result
envelope `{content: [{type: "text", text}]}` is `Envelope`; a thrown
store error is `Except.error` (the transports wrap it as an "internal
error" / HTTP 500 envelope).  The external enhancement collaborator is
the function parameter `enhance` (same collaborator object on both
transports); repository introspection is the `RepositoryInfo` parameter.
-/

/-- One `{type, text}` entry of a result envelope. -/
structure ContentItem where
  itemType : String
  text : String
deriving DecidableEq

/-- The uniform result envelope `{content: [...]}`. -/
structure Envelope where
  content : List ContentItem
deriving DecidableEq

/-- The single-text envelope every handler returns. -/
def textEnvelope (t : String) : Envelope := ⟨[⟨"text", t⟩]⟩

/-- Arguments of the `add_memory` operation. -/
structure AddMemoryArgs where
  content : String
  context : Option String := none
  importance : Option Int := none
  project : Option String := none
  category : Option String := none
  tags : Option (List String) := none
deriving DecidableEq

/-- `detectRepositoryInfo`'s result (src/utils.ts lines 245-252),
produced by the external version-control collaborator. -/
structure RepositoryInfo where
  isGitRepo : Bool
  repoName : Option String := none
  branch : Option String := none
  remoteName : Option String := none
  remoteUrl : Option String := none
  tags : List String := []
deriving DecidableEq

/-- The `RepositoryInfo` outside any git repository. -/
def noRepoInfo : RepositoryInfo := { isGitRepo := false }

/-- JS `s.replace('/', '-')`: replace only the first occurrence. -/
def replaceFirstChar (target repl : Char) : List Char → List Char
  | [] => []
  | c :: rest =>
    if c = target then repl :: rest
    else c :: replaceFirstChar target repl rest

/-- `repoInfo.repoName.replace('/', '-')`. -/
def replaceFirstSlashDash (s : String) : String :=
  String.mk (replaceFirstChar '/' '-' s.data)

/-- `enhanceMemoryWithRepoInfo` (src/utils.ts lines 313-335): append the
repository tags, fill in the project from the repository name when the
caller gave none (or the empty string), and replace a missing/empty/
`general` context by `repo-<name>`. -/
def enhanceMemoryWithRepoInfo (m : MemoryData) (info : RepositoryInfo) :
    MemoryData :=
  let withTags :=
    if info.isGitRepo ∧ info.tags ≠ [] then
      { m with tags := some (m.tags.getD [] ++ info.tags) }
    else m
  let withProject :=
    if (withTags.project = none ∨ withTags.project = some "") ∧
        info.repoName ≠ none then
      { withTags with project := info.repoName }
    else withTags
  if withProject.context = none ∨ withProject.context = some "" ∨
      withProject.context = some "general" then
    match info.repoName with
    | some rn =>
      { withProject with context := some ("repo-" ++ replaceFirstSlashDash rn) }
    | none => withProject
  else withProject

/-- The `memoryData` object both add-memory handlers build from the
arguments (identical lines in src/index.ts and src/http-server.ts):
`context: context || 'general'`, `importance = 5` default, source
`manual`, original content preserved. -/
def addMemoryArgsData (enhancedContent : String) (now : Nat)
    (args : AddMemoryArgs) : MemoryData :=
  { content := enhancedContent, originalContent := some args.content,
    context := some (jsOrOptStr args.context "general"),
    importance := some (args.importance.getD 5),
    timestamp := now, source := some "manual",
    project := args.project, category := args.category,
    tags := args.tags }

/-- `handleAddMemory` of the direct (stdio) transport (src/index.ts
lines 105-136): optional enhancement, then `addMemory`, then the
success envelope.  `enhance` already folds in the collaborator's
failure fallback (it returns the original content on failure). -/
def handleAddMemoryStdio (autoExtract dedup : Bool)
    (enhance : String → Option String → String) (db? : Option Db)
    (freshId : String) (now : Nat) (args : AddMemoryArgs) :
    Except String Envelope × Option Db :=
  let enhancedContent :=
    if autoExtract then enhance args.content args.context else args.content
  match addMemory dedup db? freshId now
      (addMemoryArgsData enhancedContent now args) with
  | (Except.ok memory, db') =>
    (Except.ok (textEnvelope ("Memory stored successfully with ID: " ++
      memory.id ++ "\nContent: " ++ enhancedContent)), db')
  | (Except.error e, db') => (Except.error e, db')

/-- `handleAddMemory` of the HTTP proxy transport (src/http-server.ts
lines 57-90): identical to the stdio one except that the memory data is
additionally passed through `enhanceMemoryWithRepoInfo`. -/
def handleAddMemoryHttp (autoExtract dedup : Bool)
    (enhance : String → Option String → String) (info : RepositoryInfo)
    (db? : Option Db) (freshId : String) (now : Nat)
    (args : AddMemoryArgs) : Except String Envelope × Option Db :=
  let enhancedContent :=
    if autoExtract then enhance args.content args.context else args.content
  match addMemory dedup db? freshId now
      (enhanceMemoryWithRepoInfo
        (addMemoryArgsData enhancedContent now args) info) with
  | (Except.ok memory, db') =>
    (Except.ok (textEnvelope ("Memory stored successfully with ID: " ++
      memory.id ++ "\nContent: " ++ enhancedContent)), db')
  | (Except.error e, db') => (Except.error e, db')

/-- `handleDeleteMemory` of the stdio transport (src/index.ts lines
248-272); the not-found case is a normal text envelope, not an error. -/
def handleDeleteMemoryStdio (db? : Option Db) (id : String) :
    Except String Envelope × Option Db :=
  match deleteMemory db? id with
  | (Except.ok deleted, db') =>
    if deleted then
      (Except.ok (textEnvelope ("Memory with ID \"" ++ id ++
        "\" deleted successfully")), db')
    else
      (Except.ok (textEnvelope ("Memory with ID \"" ++ id ++
        "\" not found")), db')
  | (Except.error e, db') => (Except.error e, db')

/-- `handleDeleteMemory` of the HTTP transport (src/http-server.ts lines
205-229); same logic, differently worded texts. -/
def handleDeleteMemoryHttp (db? : Option Db) (id : String) :
    Except String Envelope × Option Db :=
  match deleteMemory db? id with
  | (Except.ok deleted, db') =>
    if deleted then
      (Except.ok (textEnvelope ("Memory with ID " ++ id ++
        " deleted successfully.")), db')
    else
      (Except.ok (textEnvelope ("Memory with ID " ++ id ++
        " not found.")), db')
  | (Except.error e, db') => (Except.error e, db')

/-- `handleUpdateTodo` (identical in src/index.ts lines 442-466 and
src/http-server.ts lines 399-423). -/
def handleUpdateTodo (db? : Option Db) (id : String) (u : TodoUpdates)
    (now : Nat) : Except String Envelope × Option Db :=
  match updateTodo db? id u now with
  | (Except.ok none, db') =>
    (Except.ok (textEnvelope ("Todo with ID " ++ id ++ " not found.")), db')
  | (Except.ok (some t), db') =>
    (Except.ok (textEnvelope ("Todo updated successfully:\nID: " ++ t.id ++
      "\nContent: " ++ t.content ++ "\nStatus: " ++ t.status ++
      "\nPriority: " ++ t.priority)), db')
  | (Except.error e, db') => (Except.error e, db')

/-- One extracted fact (`ExtractedMemory` of src/types). -/
structure ExtractedMemory where
  content : String
  context : Option String := none
  importance : Option Int := none
deriving DecidableEq

/-- The validation/cleaning `extractMemories` applies to the
collaborator's parsed answer (src/ollama-client.ts lines 164-176): drop
entries with blank content, trim, default the context, and clamp
`importance || 5` into [1, 10]. -/
def extractMemoriesValidate (parsed : List ExtractedMemory)
    (context : String) : List ExtractedMemory :=
  (parsed.filter (fun m => ¬ jsTrim m.content = "")).map (fun m =>
    { content := jsTrim m.content,
      context := some (jsOrOptStr m.context context),
      importance := some (min (max (jsOrInt m.importance 5) 1) 10) })

/-- The local fallback when the extraction collaborator fails
(src/ollama-client.ts lines 180-191): one truncated fact when the text
is longer than 20 characters after trimming, else nothing. -/
def extractMemoriesFallback (text : String) (context : String) :
    List ExtractedMemory :=
  if 20 < (jsTrim text).length then
    [{ content := strSlice text 200 ++
        (if 200 < text.length then "..." else ""),
       context := some context, importance := some 5 }]
  else []

/-- The `MemoryData` built for one extracted fact in
`handleExtractMemories` (`context: fact.context || context`,
`importance: fact.importance || 5`, source `auto-extracted`). -/
def mkExtractData (context : String) (now : Nat) (f : ExtractedMemory) :
    MemoryData :=
  { content := f.content,
    context := some (jsOrOptStr f.context context),
    importance := some (jsOrInt f.importance 5),
    timestamp := now, source := some "auto-extracted" }

/-- The `addMemory` loop of `handleExtractMemories`. -/
def extractLoop (dedup : Bool) (idGen : Nat → String) (now : Nat)
    (context : String) :
    Option Db → Nat → List ExtractedMemory →
    Except String (List StoredMemory) × Option Db
  | db?, _, [] => (Except.ok [], db?)
  | db?, k, f :: rest =>
    match addMemory dedup db? (idGen k) now (mkExtractData context now f) with
    | (Except.ok mem, db') =>
      (match extractLoop dedup idGen now context db' (k + 1) rest with
       | (Except.ok mems, db'') => (Except.ok (mem :: mems), db'')
       | (Except.error e, db'') => (Except.error e, db''))
    | (Except.error e, db') => (Except.error e, db')

/-- `handleExtractMemories` (identical in src/index.ts lines 217-246 and
src/http-server.ts lines 174-203): store each fact delivered by the
extraction collaborator (already validated or produced by the fallback)
as an independent memory.  The argument destructuring default
`context = 'conversation'` applies only when the caller omitted it. -/
def handleExtractMemories (dedup : Bool) (db? : Option Db)
    (facts : List ExtractedMemory) (contextArg : Option String)
    (idGen : Nat → String) (now : Nat) :
    Except String Envelope × Option Db :=
  let context := contextArg.getD "conversation"
  match extractLoop dedup idGen now context db? 0 facts with
  | (Except.ok mems, db') =>
    (Except.ok (textEnvelope ("Extracted and stored " ++
      toString mems.length ++ " memories:\n\n" ++
      String.intercalate "\n" (mems.map (fun m => "- " ++ m.content)))), db')
  | (Except.error e, db') => (Except.error e, db')

/-- The operation catalog advertised by the direct (stdio) transport
(src/index.ts `ListToolsRequestSchema` handler), as (name, description)
pairs; the JSON argument schemas are not needed by any claim and are
omitted from the model. -/
def stdioToolCatalog : List (String × String) :=
  [("add_memory", "Store a new memory or fact for future reference"),
   ("search_memories", "Search for relevant memories based on query"),
   ("get_memories", "Get recent memories or all memories for a context"),
   ("extract_memories",
    "Extract and store important facts from a conversation or text"),
   ("delete_memory", "Delete a specific memory by ID"),
   ("list_projects", "Show all projects with memories"),
   ("list_project_files", "Show memory categories for a project"),
   ("memory_bank_update", "Structured updates to project memories"),
   ("export_memory_bank", "Export memories in different formats"),
   ("add_todo", "Add a new todo item"),
   ("list_todos", "List todos with optional filters"),
   ("update_todo", "Update an existing todo"),
   ("delete_todo", "Delete a todo")]

/-- The operation catalog advertised by the HTTP proxy transport
(src/http-server.ts `tools`), as (name, description) pairs. -/
def httpToolCatalog : List (String × String) :=
  [("add_memory", "Store a new memory or fact for future reference"),
   ("search_memories", "Search for relevant memories based on query"),
   ("get_memories", "Get recent memories or all memories for a context"),
   ("extract_memories",
    "Extract and store important facts from conversation/text"),
   ("delete_memory", "Delete a specific memory by ID"),
   ("list_projects", "Show all projects with memories"),
   ("list_project_files", "Show memory categories for a project"),
   ("memory_bank_update", "Structured updates to project memories"),
   ("export_memory_bank", "Export memories in different formats"),
   ("add_todo", "Add a new todo item"),
   ("list_todos", "List todos with optional filters"),
   ("update_todo", "Update an existing todo"),
   ("delete_todo", "Delete a todo")]

deriving instance DecidableEq for Except

/-- The scenario input of claim C2:
`{content: "Use PostgreSQL", context: "db", importance: 9}`. -/
def pgMemoryData : MemoryData :=
  { content := "Use PostgreSQL", context := some "db",
    importance := some 9, timestamp := 1 }

/-- The memory rows of a (possibly uninitialized) store state. -/
def rowsOf : Option Db → List MemoryRow
  | none => []
  | some db => db.memories

/-!
## Theorems
-/

/-! ### Basic facts about the similarity engine -/

theorem splitWsGo_ne_nil (inRun : Bool) (cs acc : List Char) :
    splitWsGo inRun cs acc ≠ [] := by
  induction cs generalizing inRun acc with
  | nil => simp [splitWsGo]
  | cons c rest ih =>
    simp only [splitWsGo]
    by_cases hw : c.isWhitespace <;> by_cases hr : inRun <;> simp [hw, hr, ih]

theorem jsSplitWs_ne_nil (s : String) : jsSplitWs s ≠ [] :=
  splitWsGo_ne_nil false s.data []

theorem charsContain_self (l : List Char) : charsContain l l = true := by
  unfold charsContain
  rw [List.any_eq_true]
  exact ⟨0, by simp, by simp [List.isPrefixOf_iff_prefix]⟩

theorem strIncludes_self (s : String) : strIncludes s s = true :=
  charsContain_self s.data

/-- The source's `matches` accumulator loop is `countP`. -/
theorem matchCount_eq_countP (content : List String) (query : List String)
    (acc : Nat) :
    query.foldl (fun acc queryWord =>
      if wordMatches content queryWord then acc + 1 else acc) acc =
      acc + query.countP (wordMatches content) := by
  induction query generalizing acc with
  | nil => simp
  | cons q rest ih =>
    rw [List.foldl_cons, ih, List.countP_cons]
    by_cases h : wordMatches content q
    · simp only [h, if_true]
      omega
    · simp only [h, Bool.false_eq_true, if_false]
      omega

/-- Helper: each query word matches itself inside an identical content
list, so the self-similarity is 1. -/
theorem calcSim_self (q : String) : calculateTextSimilarity q q = 1 := by
  simp only [calculateTextSimilarity]
  rw [matchCount_eq_countP]
  have hlen : (jsSplitWs (jsToLower q)).length > 0 :=
    List.length_pos.mpr (jsSplitWs_ne_nil (jsToLower q))
  have hcnt : (jsSplitWs (jsToLower q)).countP
      (wordMatches (jsSplitWs (jsToLower q))) =
      (jsSplitWs (jsToLower q)).length := by
    rw [List.countP_eq_length]
    intro w hw
    unfold wordMatches
    rw [List.any_eq_true]
    exact ⟨w, hw, by simp [strIncludes_self]⟩
  rw [Nat.zero_add, hcnt]
  simp only [hlen, if_true]
  rw [div_self (by exact_mod_cast hlen.ne')]

/-- Helper: the coverage score is between 0 and 1. -/
theorem calcSim_bounds (t1 t2 : String) :
    0 ≤ calculateTextSimilarity t1 t2 ∧ calculateTextSimilarity t1 t2 ≤ 1 := by
  simp only [calculateTextSimilarity]
  rw [matchCount_eq_countP]
  set query := jsSplitWs (jsToLower t1)
  set content := jsSplitWs (jsToLower t2)
  by_cases h : query.length > 0
  · simp only [h, if_true, Nat.zero_add]
    constructor
    · positivity
    · rw [div_le_one (by exact_mod_cast h)]
      exact_mod_cast List.countP_le_length _
  · simp [h]


/-- Claim C5 (code bug): the engine is total, but the empty query does
not score 0 — JS `"".split(/\s+/)` is `[""]` and every word contains the
empty string, so `calculateTextSimilarity("", "anything")` is 1, and the
Jaccard policy likewise gives `simpleTextSimilarity("", "")` = 1.  The
source's own `query.length > 0 ? ... : 0` guard shows the intended 0 for
degenerate queries but is unreachable. -/
theorem claim_C5_empty_query_scores_one :
    calculateTextSimilarity "" "anything" = 1 ∧
    simpleTextSimilarity "" "" = 1 := by
  constructor
  · have hfold : (jsSplitWs (jsToLower "")).foldl
        (fun acc queryWord =>
          if wordMatches (jsSplitWs (jsToLower "anything")) queryWord then
            acc + 1
          else acc) 0 = 1 := by decide
    have hlen : (jsSplitWs (jsToLower "")).length = 1 := by decide
    simp only [calculateTextSimilarity, hfold, hlen]
    norm_num
  · have h1 : ((jsSplitWs (jsToLower "")).dedup.filter
        (fun x => (jsSplitWs (jsToLower "")).dedup.contains x)).length = 1 := by
      decide
    have h2 : (((jsSplitWs (jsToLower "")).dedup ++
        (jsSplitWs (jsToLower "")).dedup).dedup).length = 1 := by decide
    simp only [simpleTextSimilarity, h1, h2]
    norm_num

/-- Claim C6: the query-coverage score equals the matched-query-words
count divided by the query-word count (so it lies in [0, 1]), and the
self-similarity of every non-empty text is 1. -/
theorem claim_C6_coverage_formula :
    (∀ t1 t2 : String,
        calculateTextSimilarity t1 t2 = specCoverageScore t1 t2 ∧
        0 ≤ calculateTextSimilarity t1 t2 ∧
        calculateTextSimilarity t1 t2 ≤ 1) ∧
    (∀ q : String, q ≠ "" → calculateTextSimilarity q q = 1) := by
  constructor
  · intro t1 t2
    refine ⟨?_, (calcSim_bounds t1 t2).1, (calcSim_bounds t1 t2).2⟩
    simp only [calculateTextSimilarity, specCoverageScore]
    rw [matchCount_eq_countP]
    have hlen : (jsSplitWs (jsToLower t1)).length > 0 :=
      List.length_pos.mpr (jsSplitWs_ne_nil _)
    simp [hlen]
  · intro q _
    exact calcSim_self q

/-- Witness for claim C6 at a concrete non-empty text. -/
theorem claim_C6_witness :
    ("abc" : String) ≠ "" ∧ calculateTextSimilarity "abc" "abc" = 1 :=
  ⟨by decide, claim_C6_coverage_formula.2 "abc" (by decide)⟩

/-- Claim C8 counterexample: `close` before initialization returns
cleanly (a silent no-op) instead of failing fast with an error. -/
theorem claim_C8_counterexample :
    closeStore none = (Except.ok (), none) := rfl

/-- Claim C8 (amended): every store operation except `close` fails fast
with the distinct "Database not initialized" error and changes no state
when called before `initialize`; `close` silently no-ops. -/
theorem claim_C8_amended :
    (∀ dedup freshId now m, addMemory dedup none freshId now m =
      (Except.error "Database not initialized", none)) ∧
    (∀ q opts, searchMemories none q opts =
      (Except.error "Database not initialized", none)) ∧
    (∀ opts, getMemories none opts =
      (Except.error "Database not initialized", none)) ∧
    (∀ id, deleteMemory none id =
      (Except.error "Database not initialized", none)) ∧
    (∀ id, getMemoryById none id =
      (Except.error "Database not initialized", none)) ∧
    (listProjects none = (Except.error "Database not initialized", none)) ∧
    (∀ p, listProjectFiles none p =
      (Except.error "Database not initialized", none)) ∧
    (∀ failAt p c mems idGen now, updateMemoryBank failAt none p c mems idGen now =
      (Except.error "Database not initialized", none)) ∧
    (∀ p c f now, exportMemoryBank none p c f now =
      (Except.error "Database not initialized", none)) ∧
    (∀ id now t, addTodo none id now t =
      (Except.error "Database not initialized", none)) ∧
    (∀ opts, listTodos none opts =
      (Except.error "Database not initialized", none)) ∧
    (∀ id u now, updateTodo none id u now =
      (Except.error "Database not initialized", none)) ∧
    (∀ id, deleteTodo none id =
      (Except.error "Database not initialized", none)) ∧
    (∀ id, getTodoById none id =
      (Except.error "Database not initialized", none)) ∧
    closeStore none = (Except.ok (), none) := by
  refine ⟨fun _ _ _ _ => rfl, fun _ _ => rfl, fun _ => rfl, fun _ => rfl,
    fun _ => rfl, rfl, fun _ => rfl, fun _ _ _ _ _ _ => rfl,
    fun _ _ _ _ => rfl, fun _ _ _ => rfl, fun _ => rfl, fun _ _ _ => rfl,
    fun _ => rfl, fun _ => rfl, rfl⟩

/-- Claim C1 (code bug): with deduplication enabled, finding a similar
memory does not merge it — `updateMemory` splices the JS key `updatedAt`
into the SET clause, but the column is `updated_at`, so SQLite rejects
the UPDATE and `addMemory` rejects.  At the input below the existing row
in the same context has coverage similarity 1 > 0.9 with the new
content, yet `addMemory` returns the SQLite error and leaves the store
unchanged: no row is updated, no merged record is returned. -/
theorem claim_C1_dedup_merge_raises :
    addMemory true
      (some ⟨[{ id := "m0", content := "use postgresql for persistence",
                originalContent := none, context := "general",
                importance := 5, timestamp := 1, source := "manual",
                project := none, category := none, tags := none,
                createdAtCol := 1, updatedAtCol := 1 }], []⟩)
      "m1" 2
      { content := "use postgresql for persistence",
        context := some "general", importance := some 7, timestamp := 2 } =
    (Except.error "SQLITE_ERROR: no such column: updatedAt",
     some ⟨[{ id := "m0", content := "use postgresql for persistence",
              originalContent := none, context := "general",
              importance := 5, timestamp := 1, source := "manual",
              project := none, category := none, tags := none,
              createdAtCol := 1, updatedAtCol := 1 }], []⟩) := by
  have hsim : calculateTextSimilarity "use postgresql for persistence"
      "use postgresql for persistence" = 1 := calcSim_self _
  have h910 : (9 : ℚ)/10 < 1 := by norm_num
  simp [addMemory, findSimilarMemory, updateMemoryDedupMerge, hsim, h910,
    List.insertionSort, List.orderedInsert, rowToStored, memoriesColumns]

/-- Helper: the insert loop succeeds and produces all rows when no
failure index falls inside the batch. -/
theorem runBankInserts_ok (failAt : Option Nat) (p : String)
    (c : Option String) (g : Nat → String) (now : Nat) :
    ∀ (mems : List BankMemory) (k : Nat),
      (∀ j, failAt = some j → ¬(k ≤ j ∧ j < k + mems.length)) →
      runBankInserts failAt p c g now k mems =
        Except.ok (bankRows p c g now k mems) := by
  intro mems
  induction mems with
  | nil => intro k _; rfl
  | cons m rest ih =>
    intro k h
    have hne : ¬ failAt = some k := by
      intro he
      exact h k he ⟨le_refl k, by simp only [List.length_cons]; omega⟩
    simp only [runBankInserts, if_neg hne]
    rw [ih (k + 1) ?_]
    · rfl
    · intro j hj hrange
      refine h j hj ⟨by omega, ?_⟩
      simp only [List.length_cons]
      omega

theorem runBankInserts_err (failAt : Option Nat) (p : String)
    (c : Option String) (g : Nat → String) (now : Nat) :
    ∀ (mems : List BankMemory) (k j : Nat),
      failAt = some j → k ≤ j → j < k + mems.length →
      runBankInserts failAt p c g now k mems =
        Except.error "SQLITE_ERROR: insert failed" := by
  intro mems
  induction mems with
  | nil =>
    intro k j _ h1 h2
    simp only [List.length_nil] at h2
    omega
  | cons m rest ih =>
    intro k j hj h1 h2
    by_cases hk : j = k
    · subst hk
      simp only [runBankInserts, hj, if_pos]
    · simp only [runBankInserts]
      rw [if_neg (by rw [hj]; intro he; exact hk (by injection he))]
      rw [ih (k + 1) j hj (by omega)
        (by simp only [List.length_cons] at h2; omega)]

/-- Claim C7: `updateMemoryBank` is atomic: when no insertion in the
batch fails, every entry is committed as a new row (appended to the
table); when any insertion fails mid-batch, the transaction rolls back
entirely — the store is unchanged — and the error propagates to the
caller. -/
theorem claim_C7_bank_atomic :
    ∀ (failAt : Option Nat) (db : Db) (project : String)
      (category : Option String) (mems : List BankMemory)
      (idGen : Nat → String) (now : Nat),
      ((∀ j, failAt = some j → mems.length ≤ j) →
        updateMemoryBank failAt (some db) project category mems idGen now =
          (Except.ok (), some { db with
            memories := db.memories ++
              bankRows project category idGen now 0 mems })) ∧
      (∀ j, failAt = some j → j < mems.length →
        updateMemoryBank failAt (some db) project category mems idGen now =
          (Except.error "SQLITE_ERROR: insert failed", some db)) := by
  intro failAt db p c mems g now
  constructor
  · intro h
    unfold updateMemoryBank
    rw [runBankInserts_ok failAt p c g now mems 0 ?_]
    intro j hj hrange
    have := h j hj
    omega
  · intro j hj hlt
    unfold updateMemoryBank
    rw [runBankInserts_err failAt p c g now mems 0 j hj (Nat.zero_le j)
      (by omega)]

/-- Witness for claim C7: a one-entry batch commits in full with no
failure and rolls back to the unchanged (empty) store when the first
insert fails. -/
theorem claim_C7_witness :
    updateMemoryBank none (some ⟨[], []⟩) "p" none [⟨"a", none, none⟩]
        (fun _ => "id0") 7 =
      (Except.ok (), some ⟨[] ++ bankRows "p" none (fun _ => "id0") 7 0
        [⟨"a", none, none⟩], []⟩) ∧
    updateMemoryBank (some 0) (some ⟨[], []⟩) "p" none [⟨"a", none, none⟩]
        (fun _ => "id0") 7 =
      (Except.error "SQLITE_ERROR: insert failed", some ⟨[], []⟩) :=
  ⟨(claim_C7_bank_atomic none ⟨[], []⟩ "p" none [⟨"a", none, none⟩]
      (fun _ => "id0") 7).1 (fun j hj => nomatch hj),
   (claim_C7_bank_atomic (some 0) ⟨[], []⟩ "p" none [⟨"a", none, none⟩]
      (fun _ => "id0") 7).2 0 rfl (by decide)⟩

/-- Claim C9: with an initialized store and an id that is absent,
`deleteMemory` returns `false` without raising, `updateTodo` returns
null without raising, the store is unchanged, and both transports
surface these as plain not-found text envelopes rather than errors. -/
theorem claim_C9_absent_id :
    ∀ (db : Db) (id : String) (u : TodoUpdates) (now : Nat),
      id ∉ db.memories.map MemoryRow.id →
      id ∉ db.todos.map TodoRow.id →
      deleteMemory (some db) id = (Except.ok false, some db) ∧
      updateTodo (some db) id u now = (Except.ok none, some db) ∧
      handleDeleteMemoryStdio (some db) id =
        (Except.ok (textEnvelope ("Memory with ID \"" ++ id ++
          "\" not found")), some db) ∧
      handleDeleteMemoryHttp (some db) id =
        (Except.ok (textEnvelope ("Memory with ID " ++ id ++
          " not found.")), some db) ∧
      handleUpdateTodo (some db) id u now =
        (Except.ok (textEnvelope ("Todo with ID " ++ id ++
          " not found.")), some db) := by
  intro db id u now hm ht
  have hfilter : db.memories.filter (fun r => !decide (r.id = id)) =
      db.memories := by
    rw [List.filter_eq_self]
    intro r hr
    simp only [Bool.not_eq_true', decide_eq_false_iff_not]
    intro he
    exact hm (List.mem_map.mpr ⟨r, hr, he⟩)
  have hfind : db.todos.find? (fun r => r.id = id) = none := by
    rw [List.find?_eq_none]
    intro r hr
    simp only [decide_eq_true_eq]
    intro he
    exact ht (List.mem_map.mpr ⟨r, hr, he⟩)
  have hdel : deleteMemory (some db) id = (Except.ok false, some db) := by
    simp [deleteMemory, hfilter]
  have hupd : updateTodo (some db) id u now = (Except.ok none, some db) := by
    simp [updateTodo, hfind]
  refine ⟨hdel, hupd, ?_, ?_, ?_⟩
  · simp [handleDeleteMemoryStdio, hdel]
  · simp [handleDeleteMemoryHttp, hdel]
  · simp [handleUpdateTodo, hupd]

/-- Witness for claim C9 on the empty initialized store. -/
theorem claim_C9_witness :
    deleteMemory (some ⟨[], []⟩) "nope" =
      (Except.ok false, some ⟨[], []⟩) :=
  (claim_C9_absent_id ⟨[], []⟩ "nope" {} 0 (by simp) (by simp)).1

/-- Claim C10: a stored `tags` column that is not valid JSON does not
make the reading operations fail: the `try`/`catch` around `JSON.parse`
yields an absent `tags` and `exportMemoryBank`, `listTodos` and
`getTodoById` still succeed. -/
theorem claim_C10_invalid_tags :
    ∀ (db : Db) (project category : Option String) (format : String)
      (now : Nat) (r : MemoryRow) (t : TodoRow) (opts : ListTodosArgs)
      (id s : String),
      jsJsonParse s = none →
      tagsFromColumn (some s) = none ∧
      (r.tags = some s → (exportRow r).tags = none) ∧
      (t.tags = some s → (rowToStoredTodo t).tags = none) ∧
      (∃ out, exportMemoryBank (some db) project category format now =
        (Except.ok out, some db)) ∧
      (∃ l, listTodos (some db) opts = (Except.ok l, some db)) ∧
      (∃ o, getTodoById (some db) id = (Except.ok o, some db)) := by
  intro db project category format now r t opts id s hparse
  have htags : tagsFromColumn (some s) = none := by
    simp [tagsFromColumn, hparse]
  refine ⟨htags, ?_, ?_, ⟨_, rfl⟩, ⟨_, rfl⟩, ⟨_, rfl⟩⟩
  · intro hr
    simp [exportRow, hr, htags]
  · intro htt
    simp [rowToStoredTodo, htt, htags]

/-- Witness for claim C10 on a concrete non-JSON tags value. -/
theorem claim_C10_witness :
    jsJsonParse "oops" = none ∧ tagsFromColumn (some "oops") = none :=
  ⟨rfl, (claim_C10_invalid_tags ⟨[], []⟩ none none "json" 0
    { id := "", content := "", originalContent := none, context := "",
      importance := 0, timestamp := 0, source := "", project := none,
      category := none, tags := some "oops", createdAtCol := 0,
      updatedAtCol := 0 }
    { id := "", content := "", status := "", priority := "",
      project := none, context := none, tags := some "oops",
      createdAtCol := 0, updatedAtCol := 0 }
    {} "" "oops" rfl).1⟩

/-- Claim C3 counterexample: the two transports do not advertise the
exact same catalog (the `extract_memories` descriptions differ), and
`delete_memory` with identical arguments against the same (empty) store
yields different envelopes (`Memory with ID "x" not found` versus
`Memory with ID x not found.`). -/
theorem claim_C3_counterexample :
    stdioToolCatalog ≠ httpToolCatalog ∧
    handleDeleteMemoryStdio (some ⟨[], []⟩) "x" ≠
      handleDeleteMemoryHttp (some ⟨[], []⟩) "x" := by
  constructor
  · decide
  · decide

/-- Helper: outside a git repository the repo enhancement is the
identity. -/
theorem enhanceMemoryWithRepoInfo_noRepo (m : MemoryData) :
    enhanceMemoryWithRepoInfo m noRepoInfo = m := by
  simp [enhanceMemoryWithRepoInfo, noRepoInfo]

/-- Claim C3 (amended): both transports expose the same operation names
(13 operations, same order), and `add_memory` with identical arguments,
the same enhancement outcome and fresh id, and no repository inference
yields identical result envelopes and store states on both transports;
the catalogs' description texts and several other operations' envelope
texts, however, differ between the transports. -/
theorem claim_C3_amended :
    stdioToolCatalog.map Prod.fst = httpToolCatalog.map Prod.fst ∧
    ∀ (autoExtract dedup : Bool)
      (enhance : String → Option String → String) (db? : Option Db)
      (freshId : String) (now : Nat) (args : AddMemoryArgs),
      handleAddMemoryHttp autoExtract dedup enhance noRepoInfo db? freshId
          now args =
        handleAddMemoryStdio autoExtract dedup enhance db? freshId now
          args := by
  constructor
  · rfl
  · intro autoExtract dedup enhance db? freshId now args
    simp only [handleAddMemoryHttp, handleAddMemoryStdio,
      enhanceMemoryWithRepoInfo_noRepo]

/-- Helper: the dedup-merge UPDATE always fails — `updatedAt` is not a
column of the memories table. -/
theorem updateMemoryDedupMerge_err (rows : List MemoryRow)
    (id content : String) (importance : Int) (now : Nat) :
    updateMemoryDedupMerge rows id content importance now =
      Except.error "SQLITE_ERROR: no such column: updatedAt" := by
  simp [updateMemoryDedupMerge, memoriesColumns]

/-- Helper: `addMemory` on an initialized store either leaves the rows
unchanged (merge path, which errors) or appends exactly the fresh
row. -/
theorem addMemory_state (dedup : Bool) (db : Db) (freshId : String)
    (now : Nat) (m : MemoryData) :
    (addMemory dedup (some db) freshId now m).2 = some db ∨
    (addMemory dedup (some db) freshId now m).2 =
      some { db with
        memories := db.memories ++ [mkInsertRow freshId now m] } := by
  simp only [addMemory]
  split
  · rw [updateMemoryDedupMerge_err]
    left
    rfl
  · right
    rfl

/-- Helper: `x || d` is non-empty when the default is. -/
theorem jsOrOptStr_ne_empty (x : Option String) (d : String)
    (hd : ¬ d = "") : ¬ jsOrOptStr x d = "" := by
  cases x with
  | none => exact hd
  | some s =>
    simp only [jsOrOptStr, jsOrStr]
    split
    · exact hd
    · assumption

/-- Helper: appending to a non-empty string is non-empty. -/
theorem prefixed_ne_empty (p s : String) (hp : p.length ≠ 0) :
    ¬ (p ++ s) = "" := by
  intro h
  have hlen := congrArg String.length h
  rw [String.length_append] at hlen
  simp at hlen
  omega

/-- Helper: the repo enhancement either keeps the context or replaces it
by a `repo-` prefixed one. -/
theorem enhanceRepo_context (m : MemoryData) (info : RepositoryInfo) :
    (enhanceMemoryWithRepoInfo m info).context = m.context ∨
    ∃ rn, (enhanceMemoryWithRepoInfo m info).context =
      some ("repo-" ++ replaceFirstSlashDash rn) := by
  simp only [enhanceMemoryWithRepoInfo]
  repeat' split
  all_goals first
    | (left; rfl)
    | (right; exact ⟨_, rfl⟩)

/-- Helper: rows written by the stdio add-memory handler are old rows or
carry a non-empty context. -/
theorem handleAddMemoryStdio_rows (autoExtract dedup : Bool)
    (enhance : String → Option String → String) (db? : Option Db)
    (freshId : String) (now : Nat) (args : AddMemoryArgs) :
    ∀ r ∈ rowsOf (handleAddMemoryStdio autoExtract dedup enhance db?
        freshId now args).2,
      r ∈ rowsOf db? ∨ ¬ r.context = "" := by
  intro r hr
  cases db? with
  | none =>
    simp [handleAddMemoryStdio, addMemory, rowsOf] at hr
  | some db =>
    simp only [handleAddMemoryStdio] at hr
    generalize (if autoExtract then enhance args.content args.context
      else args.content) = E at hr
    have hstate := addMemory_state dedup db freshId now
      (addMemoryArgsData E now args)
    rcases hadd : addMemory dedup (some db) freshId now
        (addMemoryArgsData E now args) with ⟨res, db2⟩
    rw [hadd] at hr hstate
    cases res
    all_goals {
      dsimp only at hr hstate
      rcases hstate with h2 | h2 <;> rw [h2] at hr <;>
        simp only [rowsOf] at hr
      · left; exact hr
      · rcases List.mem_append.mp hr with h3 | h3
        · left; exact h3
        · right
          rw [List.mem_singleton.mp h3]
          exact jsOrOptStr_ne_empty args.context "general" (by decide)
    }

/-- Helper: rows written by the HTTP add-memory handler are old rows or
carry a non-empty context (the repo enhancement only replaces a context
by a non-empty `repo-` one). -/
theorem handleAddMemoryHttp_rows (autoExtract dedup : Bool)
    (enhance : String → Option String → String) (info : RepositoryInfo)
    (db? : Option Db) (freshId : String) (now : Nat)
    (args : AddMemoryArgs) :
    ∀ r ∈ rowsOf (handleAddMemoryHttp autoExtract dedup enhance info db?
        freshId now args).2,
      r ∈ rowsOf db? ∨ ¬ r.context = "" := by
  intro r hr
  cases db? with
  | none =>
    simp [handleAddMemoryHttp, addMemory, rowsOf] at hr
  | some db =>
    simp only [handleAddMemoryHttp] at hr
    generalize (if autoExtract then enhance args.content args.context
      else args.content) = E at hr
    have hstate := addMemory_state dedup db freshId now
      (enhanceMemoryWithRepoInfo (addMemoryArgsData E now args) info)
    rcases hadd : addMemory dedup (some db) freshId now
        (enhanceMemoryWithRepoInfo (addMemoryArgsData E now args) info)
      with ⟨res, db2⟩
    rw [hadd] at hr hstate
    cases res
    all_goals {
      dsimp only at hr hstate
      rcases hstate with h2 | h2 <;> rw [h2] at hr <;>
        simp only [rowsOf] at hr
      · left; exact hr
      · rcases List.mem_append.mp hr with h3 | h3
        · left; exact h3
        · right
          rw [List.mem_singleton.mp h3]
          show ¬ (mkInsertRow freshId now _).context = ""
          simp only [mkInsertRow]
          rcases enhanceRepo_context (addMemoryArgsData E now args) info
            with hc | ⟨rn, hc⟩
          · rw [hc]
            exact jsOrOptStr_ne_empty args.context "general" (by decide)
          · rw [hc]
            exact prefixed_ne_empty "repo-" (replaceFirstSlashDash rn)
              (by decide)
    }

/-- Helper: every row a successful bank insert loop produces carries the
context `category || 'general'`. -/
theorem runBankInserts_context (failAt : Option Nat) (p : String)
    (c : Option String) (g : Nat → String) (now : Nat) :
    ∀ (mems : List BankMemory) (k : Nat) (rows : List MemoryRow),
      runBankInserts failAt p c g now k mems = Except.ok rows →
      ∀ r ∈ rows, r.context = jsOrOptStr c "general" := by
  intro mems
  induction mems with
  | nil =>
    intro k rows h r hr
    injection h with h
    subst h
    simp at hr
  | cons m rest ih =>
    intro k rows h r hr
    simp only [runBankInserts] at h
    split at h
    · exact absurd h (by simp)
    · cases hrec : runBankInserts failAt p c g now (k + 1) rest with
      | ok rows' =>
        rw [hrec] at h
        injection h with h
        subst h
        rcases List.mem_cons.mp hr with h3 | h3
        · rw [h3]; rfl
        · exact ih (k + 1) rows' hrec r h3
      | error e =>
        rw [hrec] at h
        exact absurd h (by simp)

/-- Claim C4 counterexample: `add_memory` with importance 42 stores the
row with importance 42 (no clamping to [1, 10]), and the extract path
with a caller-supplied empty context string stores a row whose context
is empty (the `context = 'conversation'` default only applies to an
absent argument and `fact.context || context` falls through to the
empty string). -/
theorem claim_C4_counterexample :
    (handleAddMemoryStdio false true (fun c _ => c) (some ⟨[], []⟩)
        "id1" 1 { content := "x", importance := some 42 }).2 =
      some ⟨[{ id := "id1", content := "x", originalContent := some "x",
               context := "general", importance := 42, timestamp := 1,
               source := "manual", project := none, category := none,
               tags := none, createdAtCol := 1, updatedAtCol := 1 }],
            []⟩ ∧
    ¬((42 : Int) ≤ 10) ∧
    (handleExtractMemories true (some ⟨[], []⟩)
        (extractMemoriesFallback
          "this text is long enough for the fallback" "")
        (some "") (fun _ => "id2") 3).2 =
      some ⟨[{ id := "id2",
               content := "this text is long enough for the fallback",
               originalContent := none, context := "", importance := 5,
               timestamp := 3, source := "auto-extracted",
               project := none, category := none, tags := none,
               createdAtCol := 3, updatedAtCol := 3 }], []⟩ := by
  refine ⟨rfl, by decide, ?_⟩
  rfl

/-- Claim C4 (amended): every row written through the add-memory
handlers of either transport or through `updateMemoryBank` has a
non-empty context (defaulting to `general`), and the extract path's
validation clamps each fact's importance into [1, 10]; but `addMemory`
and `updateMemoryBank` store the caller's importance unvalidated
(defaulting to 5 when absent or zero), so stored importances can leave
[1, 10], and the extract path can store an empty context when the
caller passes an empty context string. -/
theorem claim_C4_amended :
    (∀ (autoExtract dedup : Bool)
       (enhance : String → Option String → String) (db? : Option Db)
       (freshId : String) (now : Nat) (args : AddMemoryArgs),
       ∀ r ∈ rowsOf (handleAddMemoryStdio autoExtract dedup enhance db?
           freshId now args).2,
         r ∈ rowsOf db? ∨ ¬ r.context = "") ∧
    (∀ (autoExtract dedup : Bool)
       (enhance : String → Option String → String)
       (info : RepositoryInfo) (db? : Option Db) (freshId : String)
       (now : Nat) (args : AddMemoryArgs),
       ∀ r ∈ rowsOf (handleAddMemoryHttp autoExtract dedup enhance info
           db? freshId now args).2,
         r ∈ rowsOf db? ∨ ¬ r.context = "") ∧
    (∀ (failAt : Option Nat) (db : Db) (p : String) (c : Option String)
       (mems : List BankMemory) (g : Nat → String) (now : Nat),
       ∀ r ∈ rowsOf (updateMemoryBank failAt (some db) p c mems g
           now).2,
         r ∈ db.memories ∨ ¬ r.context = "") ∧
    (∀ (parsed : List ExtractedMemory) (context : String),
       ∀ f ∈ extractMemoriesValidate parsed context,
         ∃ i, f.importance = some i ∧ 1 ≤ i ∧ i ≤ 10) := by
  refine ⟨handleAddMemoryStdio_rows, handleAddMemoryHttp_rows, ?_, ?_⟩
  · intro failAt db p c mems g now r hr
    simp only [updateMemoryBank] at hr
    cases hrun : runBankInserts failAt p c g now 0 mems with
    | ok rows =>
      rw [hrun] at hr
      simp only [rowsOf] at hr
      rcases List.mem_append.mp hr with h | h
      · left; exact h
      · right
        rw [runBankInserts_context failAt p c g now mems 0 rows hrun r h]
        exact jsOrOptStr_ne_empty c "general" (by decide)
    | error e =>
      rw [hrun] at hr
      simp only [rowsOf] at hr
      left
      exact hr
  · intro parsed context f hf
    simp only [extractMemoriesValidate, List.mem_map] at hf
    obtain ⟨m, _, rfl⟩ := hf
    refine ⟨_, rfl, ?_, ?_⟩
    · exact le_min (le_max_right _ _) (by norm_num)
    · exact min_le_right _ _

/-- Witness for claim C4 (amended) at a concrete extract validation: an
out-of-range raw importance 42 is clamped to 10. -/
theorem claim_C4_witness :
    ∃ i, ({ content := "fact", context := some "ctx",
            importance := some 10 } : ExtractedMemory).importance =
        some i ∧ 1 ≤ i ∧ i ≤ 10 :=
  claim_C4_amended.2.2.2 [{ content := "fact", importance := some 42 }]
    "ctx"
    { content := "fact", context := some "ctx", importance := some 10 }
    (by decide)

/-- Helper: the scenario similarity — full query coverage. -/
theorem pgSim : calculateTextSimilarity "PostgreSQL" "Use PostgreSQL" = 1 := by
  have hfold : (jsSplitWs (jsToLower "PostgreSQL")).foldl
      (fun acc queryWord =>
        if wordMatches (jsSplitWs (jsToLower "Use PostgreSQL")) queryWord
        then acc + 1 else acc) 0 = 1 := by decide
  have hlen : (jsSplitWs (jsToLower "PostgreSQL")).length = 1 := by decide
  simp only [calculateTextSimilarity, hfold, hlen]
  norm_num

/-- Claim C2: `searchMemories` returns only memories scoring at least
the threshold, sorted by score descending, every result arising from a
row of the store that passes the SQL pre-filter (lowercased query-token
containment, optionally scoped by context); and the scenario: after
adding `{content: "Use PostgreSQL", context: "db", importance: 9}`,
searching `"PostgreSQL"` with threshold 0.1 returns exactly that memory
with score 1. -/
theorem claim_C2_search_filter_sorted_scenario :
    (∀ (db : Db) (query : String) (opts : SearchOptions)
       (res : List ScoredMemory) (db' : Option Db),
       searchMemories (some db) query opts = (Except.ok res, db') →
       db' = some db ∧
       (∀ m ∈ res, opts.threshold ≤ m.similarity) ∧
       List.Sorted simOrder res ∧
       (∀ m ∈ res, ∃ r ∈ db.memories,
          sqlSearchFilter query opts.context r = true ∧
          m = scoreRow query r)) ∧
    (searchMemories (addMemory true (some ⟨[], []⟩) "m1" 1 pgMemoryData).2
        "PostgreSQL" { threshold := 1/10 } =
      (Except.ok [scoreRow "PostgreSQL" (mkInsertRow "m1" 1 pgMemoryData)],
       (addMemory true (some ⟨[], []⟩) "m1" 1 pgMemoryData).2) ∧
     (scoreRow "PostgreSQL" (mkInsertRow "m1" 1 pgMemoryData)).similarity =
       1) := by
  constructor
  · intro db query opts res db' h
    simp only [searchMemories] at h
    have hdb : db' = some db := (Prod.ext_iff.mp h).2.symm
    have hres : Except.ok
        ((((((db.memories.filter (sqlSearchFilter query opts.context)
          ).insertionSort importanceCreatedDesc).take opts.limit).map
            (scoreRow query)).filter
          (fun s => opts.threshold ≤ s.similarity)).insertionSort
            simOrder) = Except.ok res := (Prod.ext_iff.mp h).1
    injection hres with hres
    subst hres
    refine ⟨hdb, ?_, List.sorted_insertionSort simOrder _, ?_⟩
    · intro m hm
      have hm2 := (List.perm_insertionSort simOrder _).mem_iff.mp hm
      exact of_decide_eq_true (List.mem_filter.mp hm2).2
    · intro m hm
      have hm2 := (List.perm_insertionSort simOrder _).mem_iff.mp hm
      have hm3 := (List.mem_filter.mp hm2).1
      obtain ⟨r, hr, rfl⟩ := List.mem_map.mp hm3
      have hr2 := List.mem_of_mem_take hr
      have hr3 := (List.perm_insertionSort importanceCreatedDesc _).mem_iff.mp
        hr2
      obtain ⟨hrmem, hrpred⟩ := List.mem_filter.mp hr3
      exact ⟨r, hrmem, hrpred, rfl⟩
  · constructor
    · have h110 : ((10 : ℚ)⁻¹ : ℚ) ≤ 1 := by norm_num
      show searchMemories
          (some ⟨[mkInsertRow "m1" 1 pgMemoryData], []⟩) "PostgreSQL"
          { threshold := 1/10 } =
        (Except.ok [scoreRow "PostgreSQL" (mkInsertRow "m1" 1 pgMemoryData)],
         some ⟨[mkInsertRow "m1" 1 pgMemoryData], []⟩)
      simp [searchMemories, scoreRow, List.insertionSort,
        List.orderedInsert, pgSim, h110, mkInsertRow, pgMemoryData]
    · show calculateTextSimilarity "PostgreSQL"
        (mkInsertRow "m1" 1 pgMemoryData).content = 1
      exact pgSim

/-- Witness for claim C2: the scenario result passes the threshold
filter the theorem asserts. -/
theorem claim_C2_witness :
    (1 : ℚ)/10 ≤
      (scoreRow "PostgreSQL" (mkInsertRow "m1" 1 pgMemoryData)).similarity :=
  (claim_C2_search_filter_sorted_scenario.1
      ⟨[mkInsertRow "m1" 1 pgMemoryData], []⟩ "PostgreSQL"
      { threshold := 1/10 }
      [scoreRow "PostgreSQL" (mkInsertRow "m1" 1 pgMemoryData)]
      (some ⟨[mkInsertRow "m1" 1 pgMemoryData], []⟩)
      claim_C2_search_filter_sorted_scenario.2.1).2.1
    (scoreRow "PostgreSQL" (mkInsertRow "m1" 1 pgMemoryData)) (by simp)
